import Mathlib

/-!
Shallow embedding of the core of `rab` (a small HTTP load-generation client)
and proofs about it.

Conventions of the embedding:
* Rust byte slices (`&[u8]`) are `List Nat` with each element a byte value.
* Machine-integer arithmetic is `Nat` with explicit `% 256` where `u8`
  wrapping matters (release-mode semantics of `c - 48`).
* A Rust panic (out-of-range index) is `Option.none`; fallible code returns
  `Except` inside the `Option`.
* `Instant` is an abstract `Nat` tick; `Duration` values are `Nat`
  milliseconds, and the floating-point summary statistics are computed in `ℚ`.
-/

namespace Rab

/-- Byte list of an ASCII string, used for concrete inputs. -/
def strBytes (s : String) : List Nat :=
  s.data.map Char.toNat

/-- Embeds the closure `ascii_num` of `Response::parse` (src/src/http.rs):
`|c: u8| (c - 48) as u16`, with `u8` subtraction modelled as wrapping
(release-mode semantics). -/
def asciiNum (c : Nat) : Nat :=
  (c + 256 - 48) % 256

/-- Splits a byte list on the two-byte sequence CRLF (13, 10); embeds the
`split("\r\n")` step of `parse_server` (src/src/http.rs). -/
def splitCRLF : List Nat → List (List Nat)
  | [] => [[]]
  | 13 :: 10 :: rest => [] :: splitCRLF rest
  | c :: rest =>
    match splitCRLF rest with
    | [] => [[c]]
    | l :: ls => (c :: l) :: ls

/-- Bytes of the header key scanned for by `parse_server`. -/
def serverKey : List Nat :=
  strBytes "Server:"

/-- Embeds the `find_map` scan of `parse_server` (src/src/http.rs,
lines 32-38): the first line starting with `Server:` yields `line[8..]`.
That str slice PANICS (outer `none`) when 8 exceeds the line length, i.e. on
a line that is exactly `Server:` (7 bytes); a line of 8 or more bytes yields
the suffix from byte offset 8 (`some` of the inner option). Lines after the
first `Server:`-prefixed one are never reached. -/
def parseServerLines : List (List Nat) → Option (Option (List Nat))
  | [] => some none
  | line :: rest =>
    if serverKey.isPrefixOf line then
      if line.length < 8 then none
      else some (some (line.drop 8))
    else parseServerLines rest

/-- Embeds `parse_server` (src/src/http.rs, lines 29-39): split the buffer on
CRLF and scan for a `Server:` line. The outer `none` is the panic of
`line[8..]` on a 7-byte `Server:` line. `from_utf8_lossy` is modelled as the
identity on the byte list: on ASCII input this is exact (the conversion is
the identity and every byte offset is a char boundary); theorems about the
server scan are therefore stated under an all-bytes-below-128 hypothesis. -/
def parseServer (resp : List Nat) : Option (Option (List Nat)) :=
  parseServerLines (splitCRLF resp)

/-- Embeds `struct Response` (src/src/http.rs): a parsed status code and the
optional `Server` header value. -/
structure Response where
  status : Nat
  server : Option (List Nat)
deriving DecidableEq, Repr

/-- Embeds `Response::parse` (src/src/http.rs, lines 9-26). The subscript
`resp[9..12]` panics when `resp.len() < 12`, modelled by `none`; otherwise the
3-byte subslice always matches the pattern `[a, b, c]`, so the `Err` branch
(modelled by `Except.error`, carrying the offending bytes) is only reachable
when the subslice length differs from 3. When `status_only` is false the
`parse_server` call runs, and its `line[8..]` panic propagates (`none`). -/
def Response.parse (resp : List Nat) (status_only : Bool) : Option (Except (List Nat) Response) :=
  if resp.length < 12 then
    none
  else
    match (resp.drop 9).take 3 with
    | [a, b, c] =>
      let status := asciiNum a * 100 + asciiNum b * 10 + asciiNum c
      if status_only then
        some (Except.ok { status := status, server := none })
      else
        match parseServer resp with
        | none => none
        | some server => some (Except.ok { status := status, server := server })
    | _ => some (Except.error resp)

deriving instance DecidableEq for Except

/-- Embeds `struct Ctx` (src/src/ctx.rs, lines 7-19): the benchmark context
with its counters. The `poll` handle and `token` allocator are I/O state not
needed by any claim; `payload` is kept as a byte list. The `doclen` field
exists in src/src/ctx.rs (line 15) but the (older) `Ctx` in
src/src/connection.rs lacks it; this embedding follows src/src/ctx.rs. -/
structure Ctx where
  successful_responses : Nat
  unsuccessful_responses : Nat
  failed_responses : Nat
  sent_requests : Nat
  payload : List Nat
  concurrency : Nat
  server_name : Option (List Nat)
  doclen : Option Nat
  max_requests : Nat
deriving DecidableEq, Repr

/-- Embeds `Ctx::total_responses` (src/src/ctx.rs, lines 38-40). -/
def Ctx.total_responses (ctx : Ctx) : Nat :=
  ctx.failed_responses + ctx.successful_responses + ctx.unsuccessful_responses

/-- Embeds `Ctx::expect_more_responses` (src/src/ctx.rs, lines 42-44). -/
def Ctx.expect_more_responses (ctx : Ctx) : Bool :=
  ctx.total_responses < ctx.max_requests

/-- Embeds `Ctx::successful_response` (src/src/ctx.rs, lines 46-48). -/
def Ctx.successful_response (ctx : Ctx) : Ctx :=
  { ctx with successful_responses := ctx.successful_responses + 1 }

/-- Embeds `Ctx::unsuccessful_response` (src/src/ctx.rs, lines 50-52). -/
def Ctx.unsuccessful_response (ctx : Ctx) : Ctx :=
  { ctx with unsuccessful_responses := ctx.unsuccessful_responses + 1 }

/-- Embeds `Ctx::failed_response` (src/src/ctx.rs, lines 54-56). -/
def Ctx.failed_response (ctx : Ctx) : Ctx :=
  { ctx with failed_responses := ctx.failed_responses + 1 }

/-- Embeds `Ctx::send_more` (src/src/ctx.rs, lines 78-80). -/
def Ctx.send_more (ctx : Ctx) : Bool :=
  ctx.max_requests > ctx.sent_requests

/-- Embeds `record_response` (src/src/benchmarking.rs, lines 89-110); the
caller passes `received_data = &buf[..bytes_read]` and the connection's
`is_reading_response()` flag (the guard on line 90 is the negation of that
flag). A panic propagating out of `Response::parse` is `none`.

The `doclen` update is modelled from the spec: the variant of
`record_response` that stores the document length is not under src/ — only
the `doclen` field (src/src/ctx.rs line 15), its printer
(src/src/reporting.rs line 114) and the integration test
`should_count_body_length` (src/tests/read_http_response.rs) refer to it.
Per the spec (§4.1, §4.4) the byte length of the first read is recorded,
on the very first response only, alongside `server_name`. -/
def recordResponse (received_data : List Nat) (reading_response : Bool) (ctx : Ctx) :
    Option Ctx :=
  if reading_response then some ctx
  else
    let pServerName := ctx.server_name.isNone
    match Response.parse received_data (!pServerName) with
    | none => none
    | some (Except.error _) => some ctx.failed_response
    | some (Except.ok resp) =>
      let ctx :=
        if pServerName then
          { ctx with
            server_name := some (resp.server.getD []),
            doclen := some received_data.length }
        else ctx
      if 200 ≤ resp.status ∧ resp.status < 300 then some ctx.successful_response
      else some ctx.unsuccessful_response

/-- Embeds the index computation of `print_response_times`
(src/src/reporting.rs, line 176): `all_times.len() / 100 * percentage`,
with `/` the integer (flooring) division of `usize`. -/
def percentileIdx (len p : Nat) : Nat :=
  len / 100 * p

/-- The fixed percentile cut points of `print_response_times`
(src/src/reporting.rs, line 175). -/
def percentages : List Nat :=
  [50, 66, 75, 80, 90, 95, 98, 99]

/-- Value printed for cut point `p` by `print_response_times`
(src/src/reporting.rs, line 177): the sorted sample at the computed index,
in milliseconds; `none` models the panic of an out-of-range `all_times[idx]`. -/
def reportedPercentile (all_times : List Nat) (p : Nat) : Option Nat :=
  all_times[percentileIdx all_times.length p]?

/-- Embeds `mean` (src/src/reporting.rs, lines 190-193) with durations as
natural-number milliseconds and the `f32` arithmetic carried out exactly
in `ℚ`. -/
def mean (times : List Nat) : ℚ :=
  (times.sum : ℚ) / (times.length : ℚ)

/-- Embeds the variance computed inside `std_dev` (src/src/reporting.rs,
lines 195-203): squared deviations from the mean, summed, divided by
`len - 1` (sample variance); `std_dev` itself is its square root. -/
def variance (times : List Nat) : ℚ :=
  (times.map (fun t => ((t : ℚ) - mean times) ^ 2)).sum / ((times.length - 1 : Nat) : ℚ)

/-- Embeds `enum ConnectionState` (src/src/connection.rs, lines 155-161). -/
inductive ConnectionState
  | UNCONNECTED
  | CONNECTING
  | CONNECTED
  | READ
deriving DecidableEq, Repr

/-- Embeds the Statistics Collector's shadow `enum State`
(src/src/reporting.rs, lines 24-30), with `Instant` as an abstract tick. -/
inductive RState
  | Unconnected
  | Connecting (started : Nat)
  | Connected
  | Read (started : Nat)
deriving DecidableEq, Repr

/-- Embeds `struct ConnectionStats` (src/src/reporting.rs, lines 18-22):
durations in `times`/`ctimes` are tick differences. -/
structure ConnectionStats where
  state : RState
  times : List Nat
  ctimes : List Nat
deriving DecidableEq, Repr

/-- Embeds the match of `Reporter::connection_state_changed`
(src/src/reporting.rs, lines 51-78) for one connection's shadow record:
`now` is the current tick, `done` the reporter's completed-request counter;
the `panic!` arm is `none`. The heartbeat print on completion is output
only. -/
def connectionStateChanged (stats : ConnectionStats) (new_state : ConnectionState)
    (now : Nat) (done : Nat) : Option (ConnectionStats × Nat) :=
  match stats.state, new_state with
  | RState.Connected, ConnectionState.READ =>
    some ({ stats with state := RState.Read now }, done)
  | RState.Read started, ConnectionState.UNCONNECTED =>
    some ({ stats with state := RState.Unconnected, times := stats.times ++ [now - started] },
      done + 1)
  | RState.Connecting started, ConnectionState.CONNECTED =>
    some ({ stats with state := RState.Connected, ctimes := stats.ctimes ++ [now - started] },
      done)
  | _, ConnectionState.CONNECTING =>
    some ({ stats with state := RState.Connecting now }, done)
  | _, _ => none

/-- One outcome of `stream.read(..)` inside `read_from_stream`
(src/src/benchmarking.rs, lines 69-87): `chunk n` is `Ok(n)` (with
`chunk 0` the peer-close signal), and the error kinds are the three arms
the code distinguishes. -/
inductive ReadResult
  | chunk (n : Nat)
  | wouldBlock
  | interrupted
  | readErr
deriving DecidableEq, Repr

/-- Embeds the loop of `read_from_stream` (src/src/benchmarking.rs,
lines 69-87) over the socket's sequence of read outcomes, accumulating
`bytes_read` in `acc`. An exhausted sequence is treated like would-block
(the socket yields nothing more during this readiness event). The buffer
resizing on line 78-80 only grows capacity and does not affect the result. -/
def readFromStream : List ReadResult → Nat → Bool × Nat
  | [], acc => (false, acc)
  | ReadResult.chunk 0 :: _, acc => (true, acc)
  | ReadResult.chunk (n + 1) :: rest, acc => readFromStream rest (acc + (n + 1))
  | ReadResult.wouldBlock :: _, acc => (false, acc)
  | ReadResult.interrupted :: rest, acc => readFromStream rest acc
  | ReadResult.readErr :: _, acc => (false, acc)

/-- `read_from_stream` starting from an empty buffer (`bytes_read = 0`). -/
def readStream (rs : List ReadResult) : Bool × Nat :=
  readFromStream rs 0

/-- Embeds the counter-carrying part of `struct Connection`
(src/src/connection.rs, lines 84-94); socket, address, token and reporter
handle are I/O state not needed by any claim. -/
structure Connection where
  bytes_sent : Nat
  bytes_received : Nat
  sent_requests : Nat
  reading_response : Bool
deriving DecidableEq, Repr

/-- Embeds `Connection::bytes_read` (src/src/connection.rs, lines 138-141). -/
def Connection.bytes_read (conn : Connection) (nbytes : Nat) : Connection :=
  { conn with reading_response := true, bytes_received := conn.bytes_received + nbytes }

/-- Embeds `Connection::finish_request` (src/src/connection.rs,
lines 134-136). -/
def Connection.finish_request (conn : Connection) : Connection :=
  { conn with reading_response := false }

/-- Embeds the readable branch of `handle_connection_event`
(src/src/benchmarking.rs, lines 52-65) as it acts on the connection's
counters: drain the stream, accumulate received bytes when any arrived, and
on peer close mark the request finished (the subsequent `reset` re-dials the
socket). The `record_response` call on the first chunk updates the `Ctx`
and is modelled separately by `recordResponse`. -/
def handleReadable (rs : List ReadResult) (conn : Connection) : Connection :=
  let res := readStream rs
  let conn := if res.2 ≠ 0 then conn.bytes_read res.2 else conn
  if res.1 then conn.finish_request else conn

/-- Classification outcome of a response's first chunk, as decided by
`record_response` (src/src/benchmarking.rs, lines 99-108). -/
inductive Outcome
  | success
  | nonSuccess
  | failure
deriving DecidableEq, Repr

/-- Applies the `Ctx` counter increment matching an outcome
(src/src/benchmarking.rs, lines 100, 103, 107). -/
def applyOutcome (o : Outcome) (ctx : Ctx) : Ctx :=
  match o with
  | Outcome.success => ctx.successful_response
  | Outcome.nonSuccess => ctx.unsuccessful_response
  | Outcome.failure => ctx.failed_response

/-- One counter-relevant action of `handle_connection_event`
(src/src/benchmarking.rs, lines 43-67): `sendReq` is a write of the request
payload (lines 48-50), `respond` the arrival of the first chunk of a
response, which `record_response` classifies. -/
inductive BenchEv
  | sendReq
  | respond (o : Outcome)
deriving DecidableEq, Repr

/-- Benchmark run state: the context plus the number of requests sent whose
response has not yet been classified. `inflight` is a ghost of the
environment: the server answers each request at most once, so a response can
only arrive while a request is in flight. -/
structure RunState where
  ctx : Ctx
  inflight : Nat
deriving DecidableEq, Repr

/-- Effect of one event dispatch on the counters
(src/src/benchmarking.rs): a write happens only under the `ctx.send_more()`
guard (line 48) and increments `sent_requests` (`write_request`, line 114);
a response classification increments exactly one response counter and
consumes the in-flight request it answers. -/
def stepEv (s : RunState) (e : BenchEv) : RunState :=
  match e with
  | BenchEv.sendReq =>
    if s.ctx.send_more then
      { s with
        ctx := { s.ctx with sent_requests := s.ctx.sent_requests + 1 },
        inflight := s.inflight + 1 }
    else s
  | BenchEv.respond o =>
    if 0 < s.inflight then
      { ctx := applyOutcome o s.ctx, inflight := s.inflight - 1 }
    else s

/-- Processes the batch of events one `poll` call delivered
(src/src/benchmarking.rs, lines 24-30). -/
def processBatch (s : RunState) (evs : List BenchEv) : RunState :=
  evs.foldl stepEv s

/-- Embeds the `benchmark` loop (src/src/benchmarking.rs, lines 21-39):
each element of the schedule is the batch of events one poll delivers,
paired with whether the elapsed time exceeds the time limit after that
batch (the `elapsed > timelimit` check on line 33). The loop runs while
`ctx.expect_more_responses()` holds and breaks at the deadline. -/
def benchLoop : List (List BenchEv × Bool) → RunState → RunState
  | [], s => s
  | (batch, timedOut) :: rest, s =>
    if s.ctx.expect_more_responses then
      let s2 := processBatch s batch
      if timedOut then s2 else benchLoop rest s2
    else s

/-- Run-state invariant: classified responses plus in-flight requests never
exceed sent requests, and sent requests never exceed `max_requests`. -/
abbrev RunInv (s : RunState) : Prop :=
  s.ctx.total_responses + s.inflight ≤ s.ctx.sent_requests ∧
    s.ctx.sent_requests ≤ s.ctx.max_requests

/-- Fresh context as built by `Ctx::new` (src/src/ctx.rs, lines 22-36) with
`max_requests = 2` and `concurrency = 1`. -/
def ctx0 : Ctx :=
  { successful_responses := 0
    unsuccessful_responses := 0
    failed_responses := 0
    sent_requests := 0
    payload := []
    concurrency := 1
    server_name := none
    doclen := none
    max_requests := 2 }

/-- Context of a run whose first response has already been recorded:
`server_name` and `doclen` are set. -/
def ctx1 : Ctx :=
  { successful_responses := 1
    unsuccessful_responses := 0
    failed_responses := 0
    sent_requests := 2
    payload := []
    concurrency := 1
    server_name := some (strBytes "gws")
    doclen := some 15
    max_requests := 5 }

/-- First chunk of a 404 response, used as a later-response input. -/
def d404 : List Nat :=
  strBytes "HTTP/1.1 404 Not Found"

/-- Result of recording `d404` against `ctx1`: only the non-2xx counter
moves. -/
def ctx1u : Ctx :=
  { ctx1 with unsuccessful_responses := ctx1.unsuccessful_responses + 1 }

/-- Fresh connection as built by `Connection::new` (src/src/connection.rs,
lines 104-114). -/
def conn0 : Connection :=
  { bytes_sent := 0
    bytes_received := 0
    sent_requests := 0
    reading_response := false }

/-- Fresh run state over `ctx0`. -/
def run0 : RunState :=
  { ctx := ctx0, inflight := 0 }

/-- Concrete schedule: one poll delivering a request write and a successful
response, with time to spare. -/
def sched0 : List (List BenchEv × Bool) :=
  [([BenchEv.sendReq, BenchEv.respond Outcome.success], false)]

/-- Bytes of a well-formed 200 first chunk. -/
def ok200 : List Nat :=
  strBytes "HTTP/1.1 200 OK"

/-- Bytes of a 200 first chunk carrying a well-formed `Server` header. -/
def srvChunk : List Nat :=
  strBytes "HTTP/1.1 200 OK\r\nServer: gws\r\n"

/-- Bytes of a 200 first chunk whose `Server` header line is exactly the
7-byte `Server:` — the input on which `parse_server`'s `line[8..]` panics. -/
def bareServerChunk : List Nat :=
  strBytes "HTTP/1.1 200\r\nServer:\r\n"

/-- Parse result of `ok200` when the server header is also scanned (there is
none in the chunk). -/
def r200 : Response :=
  { status := 200, server := none }

/-- Result of recording `ok200` against the fresh `ctx0`: the success counter
moves and the first-response fields are stored. -/
def ctx0r : Ctx :=
  { ctx0 with
    successful_responses := 1
    server_name := some []
    doclen := some 15 }

/-- Helper: the index `len / 100 * p` computed by `print_response_times` is
in bounds for any of its cut points once there are at least two samples. -/
theorem percentileIdx_lt (n p : Nat) (hn : 1 < n) (hp : p ∈ percentages) :
    percentileIdx n p < n := by
  have hp99 : p ≤ 99 := by
    simp only [percentages, List.mem_cons, List.not_mem_nil, or_false] at hp
    rcases hp with h | h | h | h | h | h | h | h <;> omega
  unfold percentileIdx
  rcases Nat.eq_zero_or_pos (n / 100) with h0 | h1
  · rw [h0, Nat.zero_mul]; omega
  · have h100 : n / 100 * 100 ≤ n := Nat.div_mul_le_self n 100
    have hmul : n / 100 * p ≤ n / 100 * 99 := Nat.mul_le_mul_left _ hp99
    have h99lt : n / 100 * 99 < n / 100 * 100 :=
      mul_lt_mul_of_pos_left (by norm_num) h1
    exact lt_of_le_of_lt hmul (lt_of_lt_of_le h99lt h100)

/-- C10: for every sample list with more than one element and every
percentage in the fixed cut-point list, the index computed by
`print_response_times` is strictly below the list length, so the indexing
never goes out of range. -/
theorem percentile_index_in_bounds (times : List Nat) (p : Nat)
    (h : 1 < times.length) (hp : p ∈ percentages) :
    percentileIdx times.length p < times.length :=
  percentileIdx_lt times.length p h hp

/-- Witness for C10 at the two-sample list `[1, 2]` and cut point 50. -/
theorem percentile_index_in_bounds_witness :
    1 < ([1, 2] : List Nat).length ∧ 50 ∈ percentages ∧
      percentileIdx ([1, 2] : List Nat).length 50 < ([1, 2] : List Nat).length :=
  ⟨by decide, by decide, percentile_index_in_bounds [1, 2] 50 (by decide) (by decide)⟩

/-- Counterexample to C1 as stated: for the sorted samples `[1, 2, 3]` the
50th-percentile index computed by the code is `3 / 100 * 50 = 0`, not 1, and
the reported value is the 1 ms sample, not the 2 ms one. -/
theorem percentile_claim_cex :
    percentileIdx 3 50 = 0 ∧ ¬percentileIdx 3 50 = 1 ∧
      reportedPercentile [1, 2, 3] 50 = some 1 ∧
      ¬reportedPercentile [1, 2, 3] 50 = some 2 := by
  decide

/-- C1 (amended): the percentile table indexes the sorted samples at
`floor(count / 100) * percentile` — the integer division happens before the
multiplication — and for sorted `[1, 2, 3]` ms every cut point, the 50th
included, yields index 0 and reports the 1 ms sample. -/
theorem percentile_index_amended (times : List Nat) (p : Nat)
    (h : 1 < times.length) (hp : p ∈ percentages) :
    ∃ hlt : times.length / 100 * p < times.length,
      reportedPercentile times p = some (times.get ⟨times.length / 100 * p, hlt⟩) ∧
        reportedPercentile [1, 2, 3] 50 = some 1 := by
  have hlt := percentileIdx_lt times.length p h hp
  refine ⟨hlt, ?_, by decide⟩
  simp only [reportedPercentile, percentileIdx] at hlt ⊢
  rw [List.getElem?_eq_getElem hlt]
  simp

/-- Witness for C1 (amended) at the three-sample list `[1, 2, 3]` and cut
point 50. -/
theorem percentile_index_amended_witness :
    1 < ([1, 2, 3] : List Nat).length ∧ 50 ∈ percentages ∧
      ∃ hlt : ([1, 2, 3] : List Nat).length / 100 * 50 < ([1, 2, 3] : List Nat).length,
        reportedPercentile [1, 2, 3] 50 =
            some (([1, 2, 3] : List Nat).get ⟨([1, 2, 3] : List Nat).length / 100 * 50, hlt⟩) ∧
          reportedPercentile [1, 2, 3] 50 = some 1 :=
  ⟨by decide, by decide, percentile_index_amended [1, 2, 3] 50 (by decide) (by decide)⟩

/-- C8: the summary statistics of the report: `mean([1,2,3]) = 2.0`,
`mean([2,3]) = 2.5`, and the sample variance (n−1 divisor) of `[3,5,7,7]` is
exactly `11/3`, whose square root — the standard deviation the code prints —
is approximated by `1.9148543` to within `10⁻⁶` (measured on the squares). -/
theorem summary_statistics_values :
    mean [1, 2, 3] = 2 ∧ mean [2, 3] = 5 / 2 ∧ variance [3, 5, 7, 7] = 11 / 3 ∧
      |((19148543 : ℚ) / 10 ^ 7) ^ 2 - variance [3, 5, 7, 7]| < 1 / 10 ^ 6 := by
  refine ⟨by norm_num [mean], by norm_num [mean], by norm_num [variance, mean], ?_⟩
  rw [abs_lt]
  constructor <;> norm_num [variance, mean]

/-- Helper: on a buffer of at least 12 bytes, the 3-byte subslice
`resp[9..12]` is exactly the bytes at offsets 9, 10, 11. -/
theorem take_three_drop_nine (l : List Nat) (h : 12 ≤ l.length) :
    (l.drop 9).take 3 = [l.getD 9 0, l.getD 10 0, l.getD 11 0] := by
  have h9 : 9 < l.length := by omega
  have h10 : 10 < l.length := by omega
  have h11 : 11 < l.length := by omega
  rw [List.getD_eq_getElem l 0 h9, List.getD_eq_getElem l 0 h10,
    List.getD_eq_getElem l 0 h11, List.drop_eq_getElem_cons h9,
    List.drop_eq_getElem_cons h10, List.drop_eq_getElem_cons h11]
  rfl

/-- Helper: when every `Server:`-prefixed line is at least 8 bytes long, the
server scan cannot hit the `line[8..]` panic. -/
theorem parseServerLines_total (lines : List (List Nat))
    (h : ∀ line ∈ lines, serverKey.isPrefixOf line → 8 ≤ line.length) :
    ∃ srv, parseServerLines lines = some srv := by
  induction lines with
  | nil => exact ⟨none, rfl⟩
  | cons l ls ih =>
    by_cases hp : serverKey.isPrefixOf l
    · have hlen : 8 ≤ l.length := h l (by simp) hp
      have hnlt : ¬l.length < 8 := by omega
      exact ⟨some (l.drop 8), by simp [parseServerLines, hp, hnlt]⟩
    · obtain ⟨srv, hsrv⟩ := ih fun x hx hpx => h x (by simp [hx]) hpx
      exact ⟨srv, by simp [parseServerLines, hp, hsrv]⟩

/-- Counterexample to C9 as stated: the 23-byte input
`"HTTP/1.1 200\r\nServer:\r\n"` is at least 12 bytes long, yet
`Response::parse` with `status_only = false` does not return `Ok` — the
`Server:` line is exactly 7 bytes, so `parse_server`'s `line[8..]`
(src/src/http.rs line 34) panics. -/
theorem parse_server_scan_panic_cex :
    12 ≤ bareServerChunk.length ∧ Response.parse bareServerChunk false = none := by
  decide

/-- C9 (amended): `Response::parse` never exercises its `Err` branch, and for
every input of fewer than 12 bytes the subscript `resp[9..12]` panics instead
of returning `Err`. For inputs of at least 12 bytes it returns `Ok` with the
status computed from the bytes at offsets 9, 10 and 11 whether or not they
are ASCII digits — unconditionally when `status_only` is true, and in
general (stated for ASCII input, where the byte-level model of
`from_utf8_lossy` is exact) provided no header line is a bare 7-byte
`Server:`, on which the server scan's `line[8..]` panics. -/
theorem parse_total_amended (resp : List Nat) (b : Bool) :
    (resp.length < 12 → Response.parse resp b = none) ∧
      (12 ≤ resp.length →
        (∀ e, Response.parse resp b ≠ some (Except.error e)) ∧
          Response.parse resp true =
            some (Except.ok
              { status := asciiNum (resp.getD 9 0) * 100 + asciiNum (resp.getD 10 0) * 10 +
                  asciiNum (resp.getD 11 0),
                server := none }) ∧
          ((∀ c ∈ resp, c < 128) →
            (∀ line ∈ splitCRLF resp, serverKey.isPrefixOf line → 8 ≤ line.length) →
            ∃ server, Response.parse resp b =
              some (Except.ok
                { status := asciiNum (resp.getD 9 0) * 100 + asciiNum (resp.getD 10 0) * 10 +
                    asciiNum (resp.getD 11 0),
                  server := server }))) := by
  constructor
  · intro h
    simp [Response.parse, h]
  · intro h12
    have hnlt : ¬resp.length < 12 := by omega
    refine ⟨?_, ?_, ?_⟩
    · intro e hcontra
      simp only [Response.parse, hnlt, if_false, take_three_drop_nine resp h12] at hcontra
      cases b with
      | false =>
        cases hps : parseServer resp with
        | none => simp [hps] at hcontra
        | some srv => simp [hps] at hcontra
      | true => simp at hcontra
    · simp only [Response.parse, hnlt, if_false, take_three_drop_nine resp h12, if_true]
    · intro hascii hlines
      cases b with
      | false =>
        obtain ⟨srv, hsrv⟩ := parseServerLines_total (splitCRLF resp) hlines
        refine ⟨srv, ?_⟩
        simp only [Response.parse, hnlt, if_false, take_three_drop_nine resp h12,
          Bool.false_eq_true, parseServer, hsrv]
      | true =>
        refine ⟨none, ?_⟩
        simp only [Response.parse, hnlt, if_false, take_three_drop_nine resp h12, if_true]

/-- Witness for C9 (amended) at the 30-byte chunk
`"HTTP/1.1 200 OK\r\nServer: gws\r\n"`, whose `Server` line is 11 bytes. -/
theorem parse_total_amended_witness :
    12 ≤ srvChunk.length ∧ (∀ c ∈ srvChunk, c < 128) ∧
      (∀ line ∈ splitCRLF srvChunk, serverKey.isPrefixOf line → 8 ≤ line.length) ∧
      (∀ e, Response.parse srvChunk false ≠ some (Except.error e)) ∧
      Response.parse srvChunk true =
        some (Except.ok
          { status := asciiNum (srvChunk.getD 9 0) * 100 + asciiNum (srvChunk.getD 10 0) * 10 +
              asciiNum (srvChunk.getD 11 0),
            server := none }) ∧
      ∃ server, Response.parse srvChunk false =
        some (Except.ok
          { status := asciiNum (srvChunk.getD 9 0) * 100 + asciiNum (srvChunk.getD 10 0) * 10 +
              asciiNum (srvChunk.getD 11 0),
            server := server }) :=
  ⟨by decide, by decide, by decide,
    ((parse_total_amended srvChunk false).2 (by decide)).1,
    ((parse_total_amended srvChunk false).2 (by decide)).2.1,
    ((parse_total_amended srvChunk false).2 (by decide)).2.2 (by decide) (by decide)⟩

/-- C2 (code behavior at the claimed inputs): the spec says a first chunk
shorter than the fixed header offset, or malformed, parses as a failure and
increments `failed_responses`. The code instead panics on `resp[9..12]` for
a chunk of fewer than 12 bytes (here the 8-byte chunk `"HTTP/1.1"`), and for
a malformed chunk of at least 12 bytes (here 12 repetitions of `X`) returns
`Ok` with a meaningless status, counting it as a non-2xx response — the
`failed_responses` counter never moves. The dead `Err` branch of
`Response::parse` and the failure path of `record_response` show the spec is
the intent and the indexing a slip. -/
theorem parse_short_first_chunk_panics :
    (strBytes "HTTP/1.1").length < 12 ∧
      Response.parse (strBytes "HTTP/1.1") true = none ∧
      recordResponse (strBytes "HTTP/1.1") false ctx0 = none ∧
      Response.parse (strBytes "XXXXXXXXXXXX") true =
        some (Except.ok { status := 4440, server := none }) ∧
      recordResponse (strBytes "XXXXXXXXXXXX") false ctx1 = some ctx1u ∧
      ctx1u.failed_responses = ctx1.failed_responses := by
  decide

/-- Counterexample to C5 as stated: the transition Read→Connecting is not
fatal — the wildcard arm `(_, CONNECTING)` of `connection_state_changed`
accepts it and restarts the connect timer. -/
theorem shadow_read_to_connecting_accepted :
    connectionStateChanged ⟨RState.Read 0, [], []⟩ ConnectionState.CONNECTING 1 0 =
      some (⟨RState.Connecting 1, [], []⟩, 0) := by
  decide

/-- C5 (amended): the shadow state machine accepts exactly the transition
pairs Connected→Read, Read→Unconnected, Connecting→Connected, and
any state→Connecting (which covers the spec's Unconnected/Connected→Connecting
but also Read→Connecting and Connecting→Connecting); every other pair — for
example Unconnected→Read — panics, terminating the run. -/
theorem shadow_transitions_characterized (st : RState) (ns : ConnectionState)
    (ts cts : List Nat) (now done : Nat) :
    connectionStateChanged ⟨st, ts, cts⟩ ns now done ≠ none ↔
      (st = RState.Connected ∧ ns = ConnectionState.READ) ∨
        ((∃ t, st = RState.Read t) ∧ ns = ConnectionState.UNCONNECTED) ∨
        ((∃ t, st = RState.Connecting t) ∧ ns = ConnectionState.CONNECTED) ∨
        ns = ConnectionState.CONNECTING := by
  cases st <;> cases ns <;> simp [connectionStateChanged]

/-- C6: whenever the first chunk of a response parses, `record_response`
increments `successful_responses` exactly when the status lies in
`[200, 300)` and `unsuccessful_responses` otherwise, and never touches
`failed_responses`; in particular `"HTTP/1.1 200 OK"` is classified
successful and `"HTTP/1.1 404 Not Found"` unsuccessful. -/
theorem status_classification (data : List Nat) (ctx : Ctx) (r : Response)
    (h : Response.parse data (!ctx.server_name.isNone) = some (Except.ok r)) :
    ((recordResponse data false ctx).map Ctx.successful_responses =
        some (ctx.successful_responses + if 200 ≤ r.status ∧ r.status < 300 then 1 else 0) ∧
      (recordResponse data false ctx).map Ctx.unsuccessful_responses =
        some (ctx.unsuccessful_responses + if 200 ≤ r.status ∧ r.status < 300 then 0 else 1) ∧
      (recordResponse data false ctx).map Ctx.failed_responses = some ctx.failed_responses) ∧
      (recordResponse ok200 false ctx0).map Ctx.successful_responses = some 1 ∧
      (recordResponse ok200 false ctx0).map Ctx.unsuccessful_responses = some 0 ∧
      (recordResponse d404 false ctx0).map Ctx.unsuccessful_responses = some 1 ∧
      (recordResponse d404 false ctx0).map Ctx.successful_responses = some 0 := by
  refine ⟨?_, by decide, by decide, by decide, by decide⟩
  have hcases : ctx.server_name.isNone = true ∨ ctx.server_name.isNone = false := by
    cases ctx.server_name.isNone <;> simp
  rcases hcases with hsn | hsn <;>
    rw [hsn] at h <;>
    simp only [Bool.not_true, Bool.not_false] at h <;>
    by_cases hval : 200 ≤ r.status ∧ r.status < 300 <;>
      simp [recordResponse, hsn, h, hval, Ctx.successful_response,
        Ctx.unsuccessful_response, Ctx.failed_response]

/-- Witness for C6 at the chunk `"HTTP/1.1 200 OK"` against a fresh context. -/
theorem status_classification_witness :
    Response.parse ok200 (!ctx0.server_name.isNone) = some (Except.ok r200) ∧
      (((recordResponse ok200 false ctx0).map Ctx.successful_responses =
          some (ctx0.successful_responses +
            if 200 ≤ r200.status ∧ r200.status < 300 then 1 else 0) ∧
        (recordResponse ok200 false ctx0).map Ctx.unsuccessful_responses =
          some (ctx0.unsuccessful_responses +
            if 200 ≤ r200.status ∧ r200.status < 300 then 0 else 1) ∧
        (recordResponse ok200 false ctx0).map Ctx.failed_responses =
          some ctx0.failed_responses) ∧
        (recordResponse ok200 false ctx0).map Ctx.successful_responses = some 1 ∧
        (recordResponse ok200 false ctx0).map Ctx.unsuccessful_responses = some 0 ∧
        (recordResponse d404 false ctx0).map Ctx.unsuccessful_responses = some 1 ∧
        (recordResponse d404 false ctx0).map Ctx.successful_responses = some 0) :=
  ⟨by decide, status_classification ok200 ctx0 r200 (by decide)⟩

/-- C3: the context's `server_name` and `doclen` are written by
`record_response` on the very first parsed response only. Once `server_name`
is set, no later call changes either field, whatever the outcome; on the
first response (`server_name` still empty) a successful parse stores the
server identifier (empty when the header is absent) and the byte length of
the first read. The `doclen` store is modelled from the spec, the storing
code being absent from src/. -/
theorem server_name_doclen_first_only :
    (∀ data rr ctx s ctx2, ctx.server_name = some s →
        recordResponse data rr ctx = some ctx2 →
        ctx2.server_name = some s ∧ ctx2.doclen = ctx.doclen) ∧
      (∀ data ctx r ctx2, ctx.server_name = none →
        Response.parse data false = some (Except.ok r) →
        recordResponse data false ctx = some ctx2 →
        ctx2.server_name = some (r.server.getD []) ∧ ctx2.doclen = some data.length) := by
  constructor
  · intro data rr ctx s ctx2 hs h
    cases rr with
    | true =>
      simp only [recordResponse, if_true] at h
      simp only [Option.some.injEq] at h
      subst h
      exact ⟨hs, rfl⟩
    | false =>
      simp only [recordResponse, hs, Option.isNone_some, Bool.not_false,
        Bool.false_eq_true, if_false] at h
      cases hp : Response.parse data true with
      | none => rw [hp] at h; cases h
      | some e =>
        cases e with
        | error msg =>
          rw [hp] at h
          simp only [Option.some.injEq] at h
          subst h
          exact ⟨hs, rfl⟩
        | ok resp =>
          simp only [hp] at h
          split at h <;>
            · simp only [Option.some.injEq] at h
              subst h
              exact ⟨hs, rfl⟩
  · intro data ctx r ctx2 hs hp h
    simp only [recordResponse, hs, Option.isNone_none, Bool.not_true,
      Bool.false_eq_true, if_false, hp, if_true] at h
    split at h <;>
      · simp only [Option.some.injEq] at h
        subst h
        exact ⟨rfl, rfl⟩

/-- Witness for C3: a later 404 response leaves `ctx1`'s stored fields
unchanged, and the first 200 response against the fresh `ctx0` stores the
(empty) server identifier and the 15-byte first-read length. -/
theorem server_name_doclen_first_only_witness :
    (ctx1.server_name = some (strBytes "gws") ∧
        recordResponse d404 false ctx1 = some ctx1u ∧
        ctx1u.server_name = some (strBytes "gws") ∧ ctx1u.doclen = ctx1.doclen) ∧
      ctx0.server_name = none ∧
        Response.parse ok200 false = some (Except.ok r200) ∧
        recordResponse ok200 false ctx0 = some ctx0r ∧
        ctx0r.server_name = some (r200.server.getD []) ∧ ctx0r.doclen = some ok200.length :=
  ⟨⟨by decide, by decide,
      (server_name_doclen_first_only.1 d404 false ctx1 (strBytes "gws") ctx1u
        (by decide) (by decide)).1,
      (server_name_doclen_first_only.1 d404 false ctx1 (strBytes "gws") ctx1u
        (by decide) (by decide)).2⟩,
    by decide, by decide, by decide,
    (server_name_doclen_first_only.2 ok200 ctx0 r200 ctx0r (by decide) (by decide)
      (by decide)).1,
    (server_name_doclen_first_only.2 ok200 ctx0 r200 ctx0r (by decide) (by decide)
      (by decide)).2⟩

/-- Helper: draining a run of non-empty chunks adds their sizes to the
accumulator and continues with the rest of the stream. -/
theorem readFromStream_chunks (chunks : List Nat) (h : ∀ c ∈ chunks, 0 < c)
    (acc : Nat) (tail : List ReadResult) :
    readFromStream (chunks.map ReadResult.chunk ++ tail) acc =
      readFromStream tail (acc + chunks.sum) := by
  induction chunks generalizing acc with
  | nil => simp [readFromStream]
  | cons c cs ih =>
    have hc : 0 < c := h c (by simp)
    obtain ⟨n, rfl⟩ : ∃ n, c = n + 1 := ⟨c - 1, by omega⟩
    simp only [List.map_cons, List.cons_append, readFromStream]
    rw [List.append_eq, ih (fun x hx => h x (by simp [hx]))]
    congr 1
    simp only [List.sum_cons]
    omega

/-- C7: a response is recognized as complete exactly on a zero-byte read
(peer close) — the same chunks followed by a would-block are not complete —
and the bytes received accumulate the sizes of every chunk read, with no
awareness of body framing; for a server that streams `"hello, "` (7 bytes)
then `"world"` (5 bytes) before closing, the connection records
`bytes_received = 12`. -/
theorem completion_on_peer_close (chunks : List Nat) (h : ∀ c ∈ chunks, 0 < c)
    (conn : Connection) :
    readStream (chunks.map ReadResult.chunk ++ [ReadResult.chunk 0]) = (true, chunks.sum) ∧
      readStream (chunks.map ReadResult.chunk ++ [ReadResult.wouldBlock]) =
        (false, chunks.sum) ∧
      (handleReadable (chunks.map ReadResult.chunk ++ [ReadResult.chunk 0]) conn).bytes_received =
        conn.bytes_received + chunks.sum ∧
      readStream [ReadResult.chunk 7, ReadResult.chunk 5, ReadResult.chunk 0] = (true, 12) ∧
      (handleReadable [ReadResult.chunk 7, ReadResult.chunk 5, ReadResult.chunk 0]
          conn0).bytes_received = 12 := by
  have hclose : readStream (chunks.map ReadResult.chunk ++ [ReadResult.chunk 0]) =
      (true, chunks.sum) := by
    unfold readStream
    rw [readFromStream_chunks chunks h 0 [ReadResult.chunk 0]]
    simp [readFromStream]
  have hblock : readStream (chunks.map ReadResult.chunk ++ [ReadResult.wouldBlock]) =
      (false, chunks.sum) := by
    unfold readStream
    rw [readFromStream_chunks chunks h 0 [ReadResult.wouldBlock]]
    simp [readFromStream]
  refine ⟨hclose, hblock, ?_, by decide, by decide⟩
  by_cases hsum : chunks.sum = 0 <;>
    simp [handleReadable, hclose, hsum, Connection.bytes_read, Connection.finish_request]

/-- Witness for C7 at the two-write stream of 7 then 5 bytes. -/
theorem completion_on_peer_close_witness :
    (∀ c ∈ [7, 5], 0 < c) ∧
      (readStream ([7, 5].map ReadResult.chunk ++ [ReadResult.chunk 0]) =
          (true, [7, 5].sum) ∧
        readStream ([7, 5].map ReadResult.chunk ++ [ReadResult.wouldBlock]) =
          (false, [7, 5].sum) ∧
        (handleReadable ([7, 5].map ReadResult.chunk ++ [ReadResult.chunk 0])
            conn0).bytes_received = conn0.bytes_received + [7, 5].sum ∧
        readStream [ReadResult.chunk 7, ReadResult.chunk 5, ReadResult.chunk 0] = (true, 12) ∧
        (handleReadable [ReadResult.chunk 7, ReadResult.chunk 5, ReadResult.chunk 0]
            conn0).bytes_received = 12) :=
  ⟨by decide, completion_on_peer_close [7, 5] (by decide) conn0⟩

/-- Helper: one event dispatch preserves the run invariant. -/
theorem stepEv_inv {s : RunState} (h : RunInv s) (e : BenchEv) : RunInv (stepEv s e) := by
  obtain ⟨h1, h2⟩ := h
  cases e with
  | sendReq =>
    by_cases hg : s.ctx.send_more
    · have hlt : s.ctx.sent_requests < s.ctx.max_requests := by
        simpa [Ctx.send_more] using hg
      simp only [stepEv, hg, if_true]
      constructor <;> simp [Ctx.total_responses] at h1 ⊢ <;> omega
    · simpa [stepEv, hg] using ⟨h1, h2⟩
  | respond o =>
    by_cases hg : 0 < s.inflight
    · cases o <;>
        · simp only [stepEv, hg, if_true, applyOutcome, Ctx.successful_response,
            Ctx.unsuccessful_response, Ctx.failed_response]
          constructor <;> simp [Ctx.total_responses] at h1 ⊢ <;> omega
    · simpa [stepEv, hg] using ⟨h1, h2⟩

/-- Helper: processing a whole poll batch preserves the run invariant. -/
theorem processBatch_inv {s : RunState} (h : RunInv s) (evs : List BenchEv) :
    RunInv (processBatch s evs) := by
  induction evs generalizing s with
  | nil => exact h
  | cons e es ih => exact ih (stepEv_inv h e)

/-- Helper: the benchmark loop preserves the run invariant. -/
theorem benchLoop_inv {s : RunState} (h : RunInv s)
    (sched : List (List BenchEv × Bool)) : RunInv (benchLoop sched s) := by
  induction sched generalizing s with
  | nil => exact h
  | cons be rest ih =>
    obtain ⟨batch, timedOut⟩ := be
    by_cases hc : s.ctx.expect_more_responses
    · cases timedOut with
      | true => simpa [benchLoop, hc] using processBatch_inv h batch
      | false => simpa [benchLoop, hc] using ih (processBatch_inv h batch)
    · simpa [benchLoop, hc] using h

/-- C4: under the environment assumption that every classified response
answers a previously sent request, the benchmark keeps
`successful + unsuccessful + failed ≤ max_requests` through every single
event and every loop iteration; the loop body never runs once the sum has
reached `max_requests` (its `expect_more_responses` guard), and once the
deadline flag is raised the remainder of the schedule is ignored. -/
theorem benchmark_counter_invariant (s : RunState) (sched : List (List BenchEv × Bool))
    (h : RunInv s) :
    RunInv (benchLoop sched s) ∧
      (benchLoop sched s).ctx.total_responses ≤ (benchLoop sched s).ctx.max_requests ∧
      (∀ e, (stepEv s e).ctx.total_responses ≤ (stepEv s e).ctx.max_requests) ∧
      (s.ctx.total_responses = s.ctx.max_requests → benchLoop sched s = s) ∧
      (∀ batch rest, benchLoop ((batch, true) :: rest) s = benchLoop [(batch, true)] s) := by
  refine ⟨benchLoop_inv h sched, ?_, ?_, ?_, ?_⟩
  · have hinv := benchLoop_inv h sched
    omega
  · intro e
    have hinv := stepEv_inv h e
    omega
  · intro heq
    cases sched with
    | nil => rfl
    | cons be rest =>
      obtain ⟨batch, timedOut⟩ := be
      have hc : s.ctx.expect_more_responses = false := by
        simp [Ctx.expect_more_responses, heq]
      simp [benchLoop, hc]
  · intro batch rest
    by_cases hc : s.ctx.expect_more_responses <;> simp [benchLoop, hc]

/-- Witness for C4 at a fresh run and a one-poll schedule sending one
request and classifying its successful response. -/
theorem benchmark_counter_invariant_witness :
    RunInv run0 ∧
      (RunInv (benchLoop sched0 run0) ∧
        (benchLoop sched0 run0).ctx.total_responses ≤
          (benchLoop sched0 run0).ctx.max_requests ∧
        (∀ e, (stepEv run0 e).ctx.total_responses ≤ (stepEv run0 e).ctx.max_requests) ∧
        (run0.ctx.total_responses = run0.ctx.max_requests → benchLoop sched0 run0 = run0) ∧
        (∀ batch rest, benchLoop ((batch, true) :: rest) run0 = benchLoop [(batch, true)] run0)) :=
  ⟨by decide, benchmark_counter_invariant run0 sched0 (by decide)⟩

end Rab
